import Mathlib

/-!
Shallow embedding of the two ledger contracts of this repository:
`contracts/FrostKeyChain.sol` (key entries) and `ColdChainTracker`
(temperature logs).  Addresses, timestamps, ciphertext handles, external
ciphertext handles, input proofs and signatures are modelled as `Nat`;
Solidity strings are modelled as byte strings `List Nat` (so
`bytes(s).length` is `List.length`).  `keccak256(abi.encode ...)` digests
are modelled injectively by an inductive type carrying the encoded
fields; ECDSA recovery and `FHE.fromExternal` are opaque external
services supplied through an environment record.  A reverting call is an
`Except.error`; the host's transaction semantics keep the pre-state on a
revert, which `applyFrostOp` below makes explicit.
-/

/-- Typed failure modes of the ledger, one per `require` / external
failure in the source (spec taxonomy, §7). -/
inductive LedgerError where
  | validationError
  | authorizationError
  | ecdsaInvalid
  | invalidProof
  | notFound
  | notOwner
  | staleTimestamp
deriving DecidableEq, Repr

/-- The `keccak256(abi.encode(TYPEHASH, ...))` digests of the three
signature checks, modelled injectively by carrying the encoded fields.
`storeTag` is `FrostKeyChain.store(address owner,string keyName)`,
`updateTag` is `FrostKeyChain.update(address owner,uint256 id)` and
`recordTag` is `ColdChainTracker.record(address recorder,string
location,string cargo)`. -/
inductive Digest where
  | storeTag (owner : Nat) (keyName : List Nat)
  | updateTag (owner : Nat) (id : Nat)
  | recordTag (owner : Nat) (location : List Nat) (cargo : List Nat)
deriving DecidableEq, Repr

/-- External collaborators: `recover` models
`ECDSA.recover (toEthSignedMessageHash digest) signature` (`none` when
the primitive itself rejects the signature), and `fromExternal` models
`FHE.fromExternal (encValue, inputProof)` (`none` when the input proof
is invalid). -/
structure Env where
  recover : Digest → Nat → Option Nat
  fromExternal : Nat → Nat → Option Nat

namespace FrostKeyChain

/-- Source `struct KeyEntry` of `FrostKeyChain.sol`. -/
structure KeyEntry where
  owner : Nat
  keyName : List Nat
  encryptedValue : Nat
  createdAt : Nat
  updatedAt : Nat
deriving DecidableEq, Repr

/-- Default entry used for out-of-range `getD` reads in statements. -/
def dfltEntry : KeyEntry := ⟨0, [], 0, 0, 0⟩

/-- Contract storage: the append-only `_keys` array and the
`_keysOf` owner index (a Solidity mapping defaults to `[]`). -/
structure State where
  keys : List KeyEntry
  keysOf : Nat → List Nat

/-- The freshly deployed contract. -/
def emptyState : State := { keys := [], keysOf := fun _ => [] }

/-- Source `_verifyStoreSignature`: recover from the store digest over
`(msg.sender, keyName)` and require the signer to be `msg.sender`. -/
def verifyStoreSignature (env : Env) (sender : Nat) (keyName : List Nat)
    (signature : Nat) : Except LedgerError Unit :=
  match env.recover (Digest.storeTag sender keyName) signature with
  | none => Except.error LedgerError.ecdsaInvalid
  | some signer =>
      if signer = sender then Except.ok () else Except.error LedgerError.authorizationError

/-- Source `_verifyUpdateSignature`: recover from the update digest over
`(msg.sender, id)` and require the signer to be `msg.sender`. -/
def verifyUpdateSignature (env : Env) (sender : Nat) (id : Nat)
    (signature : Nat) : Except LedgerError Unit :=
  match env.recover (Digest.updateTag sender id) signature with
  | none => Except.error LedgerError.ecdsaInvalid
  | some signer =>
      if signer = sender then Except.ok () else Except.error LedgerError.authorizationError

/-- Source `storeKey(keyName, encValue, inputProof, signature)` called by
`sender` at `block.timestamp = ts`.  Mirrors the source order: length
checks, signature check, `FHE.fromExternal`, push, index. -/
def storeKey (env : Env) (sender ts : Nat) (keyName : List Nat)
    (encValue inputProof signature : Nat) (s : State) : Except LedgerError State :=
  if keyName.length = 0 then Except.error LedgerError.validationError
  else if 100 < keyName.length then Except.error LedgerError.validationError
  else
    match verifyStoreSignature env sender keyName signature with
    | Except.error e => Except.error e
    | Except.ok () =>
      match env.fromExternal encValue inputProof with
      | none => Except.error LedgerError.invalidProof
      | some ev =>
        let entry : KeyEntry :=
          { owner := sender, keyName := keyName, encryptedValue := ev
            createdAt := ts, updatedAt := ts }
        let keys' := s.keys ++ [entry]
        let id := keys'.length - 1
        Except.ok
          { keys := keys'
            keysOf := fun a => if a = sender then s.keysOf a ++ [id] else s.keysOf a }

/-- Source `updateKey(id, encValue, inputProof, signature)` called by `sender`
at `block.timestamp = ts`.  Mirrors the source order: existence,
ownership, strict-timestamp guard, signature, `FHE.fromExternal`,
in-place field updates. -/
def updateKey (env : Env) (sender ts : Nat) (id : Nat)
    (encValue inputProof signature : Nat) (s : State) : Except LedgerError State :=
  if id < s.keys.length then
    if (s.keys.getD id dfltEntry).owner ≠ sender then Except.error LedgerError.notOwner
    else if ¬ (s.keys.getD id dfltEntry).updatedAt < ts then
      Except.error LedgerError.staleTimestamp
    else
      match verifyUpdateSignature env sender id signature with
      | Except.error err => Except.error err
      | Except.ok () =>
        match env.fromExternal encValue inputProof with
        | none => Except.error LedgerError.invalidProof
        | some ev =>
          Except.ok
            { s with
                keys := s.keys.set id
                  { s.keys.getD id dfltEntry with encryptedValue := ev, updatedAt := ts } }
  else Except.error LedgerError.notFound

/-- Source `getKeyCountByOwner(owner)`. -/
def getKeyCountByOwner (s : State) (owner : Nat) : Nat := (s.keysOf owner).length

/-- Source `getKeyIdsByOwner(owner)`. -/
def getKeyIdsByOwner (s : State) (owner : Nat) : List Nat := s.keysOf owner

/-- Source `getKeyMeta(id)`: requires `id < _keys.length`, returns
`(owner, keyName, createdAt, updatedAt)`. -/
def getKeyMeta (s : State) (id : Nat) :
    Except LedgerError (Nat × List Nat × Nat × Nat) :=
  if id < s.keys.length then
    Except.ok ((s.keys.getD id dfltEntry).owner, (s.keys.getD id dfltEntry).keyName,
      (s.keys.getD id dfltEntry).createdAt, (s.keys.getD id dfltEntry).updatedAt)
  else Except.error LedgerError.notFound

/-- Source `getEncryptedValue(id)`: requires `id < _keys.length`. -/
def getEncryptedValue (s : State) (id : Nat) : Except LedgerError Nat :=
  if id < s.keys.length then Except.ok (s.keys.getD id dfltEntry).encryptedValue
  else Except.error LedgerError.notFound

/-- Source `getTotalKeyCount()`. -/
def getTotalKeyCount (s : State) : Nat := s.keys.length

/-- One external transaction on the contract. -/
inductive Op where
  | store (sender ts : Nat) (keyName : List Nat) (encValue inputProof signature : Nat)
  | update (sender ts : Nat) (id : Nat) (encValue inputProof signature : Nat)

/-- Transaction semantics: a successful call commits its new state, a
reverting call leaves the state untouched (host-provided atomicity). -/
def applyOp (env : Env) (op : Op) (s : State) : State :=
  match op with
  | Op.store sender ts keyName encValue inputProof signature =>
    match storeKey env sender ts keyName encValue inputProof signature s with
    | Except.ok s' => s'
    | Except.error _ => s
  | Op.update sender ts id encValue inputProof signature =>
    match updateKey env sender ts id encValue inputProof signature s with
    | Except.ok s' => s'
    | Except.error _ => s

/-- Run a sequence of transactions oldest first. -/
def execOps (env : Env) (ops : List Op) (s : State) : State :=
  ops.foldl (fun st op => applyOp env op st) s

/-- The ids of the records owned by `o`, in id (= append) order:
the reference value of the owner index. -/
def ownedIds (keys : List KeyEntry) (o : Nat) : List Nat :=
  (List.range keys.length).filter (fun i => (keys.getD i dfltEntry).owner == o)

/-- Arguments of one `storeKey` call. -/
structure StoreCall where
  sender : Nat
  ts : Nat
  keyName : List Nat
  encValue : Nat
  inputProof : Nat
  signature : Nat

/-- Run a sequence of `storeKey` calls, `none` as soon as one reverts. -/
def execStores (env : Env) : List StoreCall → State → Option State
  | [], s => some s
  | c :: cs, s =>
    match storeKey env c.sender c.ts c.keyName c.encValue c.inputProof c.signature s with
    | Except.ok s' => execStores env cs s'
    | Except.error _ => none

end FrostKeyChain

namespace ColdChainTracker

/-- Source `struct TemperatureLog` of the `ColdChainTracker` contract. -/
structure TemperatureLog where
  recorder : Nat
  location : List Nat
  cargo : List Nat
  encryptedTemperature : Nat
  timestamp : Nat
  isWarning : Bool
deriving DecidableEq, Repr

/-- Default log used for out-of-range `getD` reads in statements. -/
def dfltLog : TemperatureLog := ⟨0, [], [], 0, 0, false⟩

/-- Contract storage: the `_logs` array and the `_logsOf` index. -/
structure State where
  logs : List TemperatureLog
  logsOf : Nat → List Nat

/-- The freshly deployed contract. -/
def emptyState : State := { logs := [], logsOf := fun _ => [] }

/-- Source `_verifyRecordSignature`: recover from the record digest over
`(msg.sender, location, cargo)` and require the signer to be
`msg.sender`. -/
def verifyRecordSignature (env : Env) (sender : Nat) (location cargo : List Nat)
    (signature : Nat) : Except LedgerError Unit :=
  match env.recover (Digest.recordTag sender location cargo) signature with
  | none => Except.error LedgerError.ecdsaInvalid
  | some signer =>
      if signer = sender then Except.ok () else Except.error LedgerError.authorizationError

/-- Source `recordTemperature(location, cargo, encTemp, inputProof, isWarning,
signature)` called by `sender` at `block.timestamp = ts`.  Mirrors the
source order: two non-emptiness checks (and no length ceiling),
signature check, `FHE.fromExternal`, push, index. -/
def recordTemperature (env : Env) (sender ts : Nat) (location cargo : List Nat)
    (encTemp inputProof : Nat) (isWarning : Bool) (signature : Nat)
    (s : State) : Except LedgerError State :=
  if location.length = 0 then Except.error LedgerError.validationError
  else if cargo.length = 0 then Except.error LedgerError.validationError
  else
    match verifyRecordSignature env sender location cargo signature with
    | Except.error e => Except.error e
    | Except.ok () =>
      match env.fromExternal encTemp inputProof with
      | none => Except.error LedgerError.invalidProof
      | some ev =>
        let log : TemperatureLog :=
          { recorder := sender, location := location, cargo := cargo
            encryptedTemperature := ev, timestamp := ts, isWarning := isWarning }
        let logs' := s.logs ++ [log]
        let id := logs'.length - 1
        Except.ok
          { logs := logs'
            logsOf := fun a => if a = sender then s.logsOf a ++ [id] else s.logsOf a }

/-- Source `getLogMeta(id)`: requires `id < _logs.length`. -/
def getLogMeta (s : State) (id : Nat) :
    Except LedgerError (Nat × List Nat × List Nat × Nat × Bool) :=
  if id < s.logs.length then
    Except.ok ((s.logs.getD id dfltLog).recorder, (s.logs.getD id dfltLog).location,
      (s.logs.getD id dfltLog).cargo, (s.logs.getD id dfltLog).timestamp,
      (s.logs.getD id dfltLog).isWarning)
  else Except.error LedgerError.notFound

/-- Source `getLogCountByRecorder(recorder)`. -/
def getLogCountByRecorder (s : State) (recorder : Nat) : Nat :=
  (s.logsOf recorder).length

/-- Source `getLogIdsByRecorder(recorder)`. -/
def getLogIdsByRecorder (s : State) (recorder : Nat) : List Nat := s.logsOf recorder

/-- Source `getAllLogIds()`: the loop fills `ids[i] = i` for `i < _logs.length`. -/
def getAllLogIds (s : State) : List Nat := List.range s.logs.length

/-- Source `getEncryptedTemperature(id)`: requires `id < _logs.length`. -/
def getEncryptedTemperature (s : State) (id : Nat) : Except LedgerError Nat :=
  if id < s.logs.length then Except.ok (s.logs.getD id dfltLog).encryptedTemperature
  else Except.error LedgerError.notFound

/-- Source `getTotalLogCount()`. -/
def getTotalLogCount (s : State) : Nat := s.logs.length

/-- Source `getStats()`: the warning count is the source's linear scan,
translated as a left fold over `_logs`. -/
def getStats (s : State) : Nat × Nat :=
  (s.logs.length,
   s.logs.foldl (fun acc l => if l.isWarning then acc + 1 else acc) 0)

/-- Arguments of one `recordTemperature` call. -/
structure RecordCall where
  sender : Nat
  ts : Nat
  location : List Nat
  cargo : List Nat
  encTemp : Nat
  inputProof : Nat
  isWarning : Bool
  signature : Nat

/-- Apply one `recordTemperature` transaction (revert keeps the state). -/
def applyRecord (env : Env) (c : RecordCall) (s : State) : State :=
  match recordTemperature env c.sender c.ts c.location c.cargo c.encTemp
      c.inputProof c.isWarning c.signature s with
  | Except.ok s' => s'
  | Except.error _ => s

/-- Run a sequence of `recordTemperature` calls, `none` as soon as one
reverts. -/
def execRecords (env : Env) : List RecordCall → State → Option State
  | [], s => some s
  | c :: cs, s =>
    match recordTemperature env c.sender c.ts c.location c.cargo c.encTemp
        c.inputProof c.isWarning c.signature s with
    | Except.ok s' => execRecords env cs s'
    | Except.error _ => none

/-- Run a sequence of `recordTemperature` transactions oldest first,
each one committing or reverting on its own (revert keeps the state). -/
def execAllRecords (env : Env) (cs : List RecordCall) (s : State) : State :=
  cs.foldl (fun st c => applyRecord env c st) s

/-- The ids of the logs recorded by `o`, in id (= append) order: the
reference value of the recorder index. -/
def ownedLogIds (logs : List TemperatureLog) (o : Nat) : List Nat :=
  (List.range logs.length).filter (fun i => (logs.getD i dfltLog).recorder == o)

end ColdChainTracker

/-- A concrete environment for witnesses: every signature `n` recovers
to address `n` whatever the digest, and every proof is accepted with the
handle passed through. -/
def envW : Env :=
  { recover := fun _ sig => some sig
    fromExternal := fun ev _ => some ev }

/-- Returns `true` iff the call committed (did not revert). -/
def isOkE {ε α : Type} : Except ε α → Bool
  | Except.ok _ => true
  | Except.error _ => false

/-- A concrete `recordTemperature` call: sender 5 at time 10, location
`[76]`, cargo `[67]`, handle 3, proof 4, no warning, signature 5. -/
def callW : ColdChainTracker.RecordCall :=
  { sender := 5, ts := 10, location := [76], cargo := [67]
    encTemp := 3, inputProof := 4, isWarning := false, signature := 5 }

/-- The tracker state after `callW` from the empty state. -/
def coldW : ColdChainTracker.State :=
  ColdChainTracker.applyRecord envW callW ColdChainTracker.emptyState

/-- A concrete `storeKey` transaction: sender 5 at time 10 stores
key name `[65]` with handle 3, proof 4, signature 5. -/
def storeOpW : FrostKeyChain.Op := FrostKeyChain.Op.store 5 10 [65] 3 4 5

/-- The key-chain state after `storeOpW` from the empty state. -/
def frostW : FrostKeyChain.State :=
  FrostKeyChain.execOps envW [storeOpW] FrostKeyChain.emptyState

/-- The key-chain state after additionally updating key 0 at time 11. -/
def frostW2 : FrostKeyChain.State :=
  FrostKeyChain.applyOp envW (FrostKeyChain.Op.update 5 11 0 7 8 5) frostW

/-- A 101-byte location string (101 copies of byte 65). -/
def loc101 : List Nat := List.replicate 101 65

/-! ## Helper lemmas: success and failure characterizations -/

namespace FrostKeyChain

theorem storeKey_ok {env : Env} {sender ts : Nat} {keyName : List Nat}
    {encValue inputProof signature : Nat} {s s' : State}
    (h : storeKey env sender ts keyName encValue inputProof signature s = Except.ok s') :
    keyName.length ≠ 0 ∧ keyName.length ≤ 100 ∧
    env.recover (Digest.storeTag sender keyName) signature = some sender ∧
    ∃ ev, env.fromExternal encValue inputProof = some ev ∧
      s'.keys = s.keys ++
        [{ owner := sender, keyName := keyName, encryptedValue := ev
           createdAt := ts, updatedAt := ts }] ∧
      s'.keysOf = fun a => if a = sender then s.keysOf a ++ [s.keys.length] else s.keysOf a := by
  unfold storeKey at h
  split at h
  · exact absurd h (by simp)
  · split at h
    · exact absurd h (by simp)
    · split at h
      · exact absurd h (by simp)
      · rename_i hlen0 hlen100 u heq
        unfold verifyStoreSignature at heq
        split at heq
        · exact absurd heq (by simp)
        · rename_i signer hrec
          split at heq
          · rename_i hs
            subst hs
            split at h
            · exact absurd h (by simp)
            · rename_i ev hev
              refine ⟨hlen0, by omega, hrec, ev, hev, ?_, ?_⟩
              · cases h; simp
              · cases h; simp
          · exact absurd heq (by simp)

end FrostKeyChain

namespace FrostKeyChain

theorem storeKey_auth_err {env : Env} {sender : Nat} {keyName : List Nat}
    {signature : Nat} (ts encValue inputProof : Nat) (s : State) {signer : Nat}
    (hlen0 : keyName.length ≠ 0) (hlen : keyName.length ≤ 100)
    (hrec : env.recover (Digest.storeTag sender keyName) signature = some signer)
    (hne : signer ≠ sender) :
    storeKey env sender ts keyName encValue inputProof signature s =
      Except.error LedgerError.authorizationError := by
  unfold storeKey verifyStoreSignature
  rw [if_neg hlen0, if_neg (by omega), hrec]
  simp [hne]

theorem updateKey_ok {env : Env} {sender ts id : Nat}
    {encValue inputProof signature : Nat} {s s' : State}
    (h : updateKey env sender ts id encValue inputProof signature s = Except.ok s') :
    id < s.keys.length ∧
    (s.keys.getD id dfltEntry).owner = sender ∧
    (s.keys.getD id dfltEntry).updatedAt < ts ∧
    env.recover (Digest.updateTag sender id) signature = some sender ∧
    ∃ ev, env.fromExternal encValue inputProof = some ev ∧
      s'.keys = s.keys.set id
        { s.keys.getD id dfltEntry with encryptedValue := ev, updatedAt := ts } ∧
      s'.keysOf = s.keysOf := by
  unfold updateKey at h
  split at h
  · rename_i hid
    split at h
    · exact absurd h (by simp)
    · split at h
      · exact absurd h (by simp)
      · rename_i hown hts
        split at h
        · exact absurd h (by simp)
        · rename_i u heq
          unfold verifyUpdateSignature at heq
          split at heq
          · exact absurd heq (by simp)
          · rename_i signer hrec
            split at heq
            · rename_i hs
              subst hs
              split at h
              · exact absurd h (by simp)
              · rename_i ev hev
                cases h
                exact ⟨hid, by omega, by omega, hrec, ev, hev, rfl, rfl⟩
            · exact absurd heq (by simp)
  · exact absurd h (by simp)

end FrostKeyChain

namespace ColdChainTracker

theorem recordTemperature_ok {env : Env} {sender ts : Nat} {location cargo : List Nat}
    {encTemp inputProof : Nat} {isWarning : Bool} {signature : Nat} {s s' : State}
    (h : recordTemperature env sender ts location cargo encTemp inputProof isWarning
      signature s = Except.ok s') :
    location.length ≠ 0 ∧ cargo.length ≠ 0 ∧
    env.recover (Digest.recordTag sender location cargo) signature = some sender ∧
    ∃ ev, env.fromExternal encTemp inputProof = some ev ∧
      s'.logs = s.logs ++
        [{ recorder := sender, location := location, cargo := cargo
           encryptedTemperature := ev, timestamp := ts, isWarning := isWarning }] ∧
      s'.logsOf = fun a => if a = sender then s.logsOf a ++ [s.logs.length] else s.logsOf a := by
  unfold recordTemperature at h
  split at h
  · exact absurd h (by simp)
  · split at h
    · exact absurd h (by simp)
    · split at h
      · exact absurd h (by simp)
      · rename_i hloc hcar u heq
        unfold verifyRecordSignature at heq
        split at heq
        · exact absurd heq (by simp)
        · rename_i signer hrec
          split at heq
          · rename_i hs
            subst hs
            split at h
            · exact absurd h (by simp)
            · rename_i ev hev
              refine ⟨hloc, hcar, hrec, ev, hev, ?_, ?_⟩
              · cases h; simp
              · cases h; simp
          · exact absurd heq (by simp)

theorem record_auth_err {env : Env} {sender : Nat} {location cargo : List Nat}
    {signature : Nat} (ts encTemp inputProof : Nat) (isWarning : Bool) (s : State)
    {signer : Nat}
    (hloc : location.length ≠ 0) (hcar : cargo.length ≠ 0)
    (hrec : env.recover (Digest.recordTag sender location cargo) signature = some signer)
    (hne : signer ≠ sender) :
    recordTemperature env sender ts location cargo encTemp inputProof isWarning
      signature s = Except.error LedgerError.authorizationError := by
  unfold recordTemperature verifyRecordSignature
  rw [if_neg hloc, if_neg hcar, hrec]
  simp [hne]

theorem execRecords_length {env : Env} :
    ∀ {cs : List RecordCall} {s s' : State},
      execRecords env cs s = some s' → s'.logs.length = s.logs.length + cs.length := by
  intro cs
  induction cs with
  | nil =>
    intro s s' h
    unfold execRecords at h
    cases h
    simp
  | cons c cs ih =>
    intro s s' h
    unfold execRecords at h
    split at h
    · rename_i s1 h1
      have hlen := (recordTemperature_ok h1).2.2.2
      obtain ⟨ev, _, hkeys, _⟩ := hlen
      have := ih h
      simp [this, hkeys]
      omega
    · exact absurd h (by simp)

end ColdChainTracker

namespace FrostKeyChain

theorem execStores_length {env : Env} :
    ∀ {cs : List StoreCall} {s s' : State},
      execStores env cs s = some s' → s'.keys.length = s.keys.length + cs.length := by
  intro cs
  induction cs with
  | nil =>
    intro s s' h
    unfold execStores at h
    cases h
    simp
  | cons c cs ih =>
    intro s s' h
    unfold execStores at h
    split at h
    · rename_i s1 h1
      obtain ⟨_, _, _, ev, _, hkeys, _⟩ := storeKey_ok h1
      have := ih h
      simp [this, hkeys]
      omega
    · exact absurd h (by simp)

end FrostKeyChain

namespace FrostKeyChain

theorem ownedIds_append (keys : List KeyEntry) (e : KeyEntry) (o : Nat) :
    ownedIds (keys ++ [e]) o =
      ownedIds keys o ++ (if e.owner = o then [keys.length] else []) := by
  unfold ownedIds
  have hlen : (keys ++ [e]).length = keys.length + 1 := by simp
  rw [hlen, List.range_succ, List.filter_append]
  congr 1
  · apply List.filter_congr
    intro i hi
    rw [List.mem_range] at hi
    simp [List.getD_eq_getElem?_getD, List.getElem?_append_left hi]
  · have hget : (keys ++ [e]).getD keys.length dfltEntry = e := by
      simp [List.getD_eq_getElem?_getD, List.getElem?_append_right (Nat.le_refl _)]
    by_cases ho : e.owner = o
    · simp [hget, ho]
    · simp [hget, ho]

theorem ownedIds_set (keys : List KeyEntry) (id : Nat) (e' : KeyEntry) (o : Nat)
    (howner : e'.owner = (keys.getD id dfltEntry).owner) :
    ownedIds (keys.set id e') o = ownedIds keys o := by
  unfold ownedIds
  rw [List.length_set]
  apply List.filter_congr
  intro i hi
  rw [List.mem_range] at hi
  by_cases hij : id = i
  · subst hij
    simp [List.getD_eq_getElem?_getD, List.getElem?_set_self hi,
      List.getElem?_eq_getElem hi, howner]
  · simp [List.getD_eq_getElem?_getD, List.getElem?_set_ne hij]

theorem applyOp_owner_index {env : Env} {op : Op} {s : State}
    (hinv : ∀ o, s.keysOf o = ownedIds s.keys o) :
    ∀ o, (applyOp env op s).keysOf o = ownedIds (applyOp env op s).keys o := by
  intro o
  cases op with
  | store sender ts keyName ev p sig =>
    simp only [applyOp]
    cases hcall : storeKey env sender ts keyName ev p sig s with
    | error e => exact hinv o
    | ok s' =>
      obtain ⟨_, _, _, ev', hev, hkeys, hkof⟩ := storeKey_ok hcall
      rw [hkof, hkeys, ownedIds_append]
      by_cases ho : o = sender
      · subst ho
        simp [hinv o]
      · have : ¬ (sender = o) := fun hc => ho hc.symm
        simp [ho, this, hinv o]
  | update sender ts id ev p sig =>
    simp only [applyOp]
    cases hcall : updateKey env sender ts id ev p sig s with
    | error e => exact hinv o
    | ok s' =>
      obtain ⟨hid, howner, hts, hrec, ev', hev, hkeys, hkof⟩ := updateKey_ok hcall
      rw [hkof, hkeys, ownedIds_set]
      · exact hinv o
      · rfl

theorem execOps_owner_index (env : Env) (ops : List Op) :
    ∀ s : State, (∀ o, s.keysOf o = ownedIds s.keys o) →
      ∀ o, (execOps env ops s).keysOf o = ownedIds (execOps env ops s).keys o := by
  induction ops with
  | nil =>
    intro s h o
    simpa [execOps] using h o
  | cons op ops ih =>
    intro s h o
    have hstep : ∀ o, (applyOp env op s).keysOf o = ownedIds (applyOp env op s).keys o :=
      applyOp_owner_index h
    simpa [execOps] using ih (applyOp env op s) hstep o

end FrostKeyChain

theorem getD_set_self_of_lt {α : Type} (l : List α) (i : Nat) (a d : α)
    (h : i < l.length) : (l.set i a).getD i d = a := by
  simp [List.getD_eq_getElem?_getD, List.getElem?_set_self h]

theorem getD_set_ne {α : Type} (l : List α) (i j : Nat) (a d : α)
    (h : i ≠ j) : (l.set i a).getD j d = l.getD j d := by
  simp [List.getD_eq_getElem?_getD, List.getElem?_set_ne h]

namespace FrostKeyChain

theorem applyOp_length_mono (env : Env) (op : Op) (s : State) :
    s.keys.length ≤ (applyOp env op s).keys.length := by
  cases op with
  | store sender ts keyName ev p sig =>
    simp only [applyOp]
    cases hcall : storeKey env sender ts keyName ev p sig s with
    | error e => exact Nat.le_refl _
    | ok s' =>
      obtain ⟨_, _, _, ev', _, hkeys, _⟩ := storeKey_ok hcall
      simp [hkeys]
  | update sender ts id ev p sig =>
    simp only [applyOp]
    cases hcall : updateKey env sender ts id ev p sig s with
    | error e => exact Nat.le_refl _
    | ok s' =>
      obtain ⟨hid, _, _, _, ev', _, hkeys, _⟩ := updateKey_ok hcall
      simp [hkeys]

theorem applyOp_preserves_entry (env : Env) (op : Op) (s : State) (i : Nat)
    (hi : i < s.keys.length) :
    ((applyOp env op s).keys.getD i dfltEntry).owner = (s.keys.getD i dfltEntry).owner ∧
    ((applyOp env op s).keys.getD i dfltEntry).keyName = (s.keys.getD i dfltEntry).keyName ∧
    ((applyOp env op s).keys.getD i dfltEntry).createdAt =
      (s.keys.getD i dfltEntry).createdAt := by
  cases op with
  | store sender ts keyName ev p sig =>
    simp only [applyOp]
    cases hcall : storeKey env sender ts keyName ev p sig s with
    | error e => exact ⟨rfl, rfl, rfl⟩
    | ok s' =>
      obtain ⟨_, _, _, ev', _, hkeys, _⟩ := storeKey_ok hcall
      have hsame : s'.keys.getD i dfltEntry = s.keys.getD i dfltEntry := by
        rw [hkeys]
        simp [List.getD_eq_getElem?_getD, List.getElem?_append_left hi]
      rw [hsame]
      exact ⟨rfl, rfl, rfl⟩
  | update sender ts id ev p sig =>
    simp only [applyOp]
    cases hcall : updateKey env sender ts id ev p sig s with
    | error e => exact ⟨rfl, rfl, rfl⟩
    | ok s' =>
      obtain ⟨hid, _, _, _, ev', _, hkeys, _⟩ := updateKey_ok hcall
      by_cases hij : id = i
      · subst hij
        have hsame : s'.keys.getD id dfltEntry =
            { s.keys.getD id dfltEntry with encryptedValue := ev', updatedAt := ts } := by
          rw [hkeys]
          exact getD_set_self_of_lt _ _ _ _ hid
        rw [hsame]
        exact ⟨rfl, rfl, rfl⟩
      · have hsame : s'.keys.getD i dfltEntry = s.keys.getD i dfltEntry := by
          rw [hkeys]
          exact getD_set_ne _ _ _ _ _ hij
        rw [hsame]
        exact ⟨rfl, rfl, rfl⟩

theorem execOps_length_mono (env : Env) (ops : List Op) :
    ∀ s : State, s.keys.length ≤ (execOps env ops s).keys.length := by
  induction ops with
  | nil => intro s; simp [execOps]
  | cons op ops ih =>
    intro s
    have h1 := applyOp_length_mono env op s
    have h2 := ih (applyOp env op s)
    simpa [execOps] using Nat.le_trans h1 h2

theorem execOps_preserves_entry (env : Env) (ops : List Op) :
    ∀ (s : State) (i : Nat), i < s.keys.length →
      ((execOps env ops s).keys.getD i dfltEntry).owner =
        (s.keys.getD i dfltEntry).owner ∧
      ((execOps env ops s).keys.getD i dfltEntry).keyName =
        (s.keys.getD i dfltEntry).keyName ∧
      ((execOps env ops s).keys.getD i dfltEntry).createdAt =
        (s.keys.getD i dfltEntry).createdAt := by
  induction ops with
  | nil =>
    intro s i hi
    simp [execOps]
  | cons op ops ih =>
    intro s i hi
    have hstep := applyOp_preserves_entry env op s i hi
    have hi' : i < (applyOp env op s).keys.length :=
      Nat.lt_of_lt_of_le hi (applyOp_length_mono env op s)
    have hrest := ih (applyOp env op s) i hi'
    simp only [execOps, List.foldl_cons] at *
    exact ⟨hrest.1.trans hstep.1, hrest.2.1.trans hstep.2.1, hrest.2.2.trans hstep.2.2⟩

end FrostKeyChain

namespace ColdChainTracker

theorem foldl_warning_count (l : List TemperatureLog) (acc : Nat) :
    l.foldl (fun a x => if x.isWarning then a + 1 else a) acc =
      acc + (l.filter (fun x => x.isWarning)).length := by
  induction l generalizing acc with
  | nil => simp
  | cons x xs ih =>
    by_cases hx : x.isWarning
    · simp [List.foldl_cons, hx, ih]
      omega
    · simp [List.foldl_cons, hx, ih]

end ColdChainTracker

namespace ColdChainTracker

theorem ownedLogIds_append (logs : List TemperatureLog) (l : TemperatureLog) (o : Nat) :
    ownedLogIds (logs ++ [l]) o =
      ownedLogIds logs o ++ (if l.recorder = o then [logs.length] else []) := by
  unfold ownedLogIds
  have hlen : (logs ++ [l]).length = logs.length + 1 := by simp
  rw [hlen, List.range_succ, List.filter_append]
  congr 1
  · apply List.filter_congr
    intro i hi
    rw [List.mem_range] at hi
    simp [List.getD_eq_getElem?_getD, List.getElem?_append_left hi]
  · have hget : (logs ++ [l]).getD logs.length dfltLog = l := by
      simp [List.getD_eq_getElem?_getD, List.getElem?_append_right (Nat.le_refl _)]
    by_cases ho : l.recorder = o
    · simp [hget, ho]
    · simp [hget, ho]

theorem applyRecord_owner_index {env : Env} {c : RecordCall} {s : State}
    (hinv : ∀ o, s.logsOf o = ownedLogIds s.logs o) :
    ∀ o, (applyRecord env c s).logsOf o = ownedLogIds (applyRecord env c s).logs o := by
  intro o
  simp only [applyRecord]
  cases hcall : recordTemperature env c.sender c.ts c.location c.cargo c.encTemp
      c.inputProof c.isWarning c.signature s with
  | error e => exact hinv o
  | ok s' =>
    obtain ⟨_, _, _, ev', hev, hlogs, hlof⟩ := recordTemperature_ok hcall
    rw [hlof, hlogs, ownedLogIds_append]
    by_cases ho : o = c.sender
    · subst ho
      simp [hinv c.sender]
    · have hns : ¬ (c.sender = o) := fun hc => ho hc.symm
      simp [ho, hns, hinv o]

theorem execAllRecords_owner_index (env : Env) (cs : List RecordCall) :
    ∀ s : State, (∀ o, s.logsOf o = ownedLogIds s.logs o) →
      ∀ o, (execAllRecords env cs s).logsOf o =
        ownedLogIds (execAllRecords env cs s).logs o := by
  induction cs with
  | nil =>
    intro s h o
    simpa [execAllRecords] using h o
  | cons c cs ih =>
    intro s h o
    have hstep : ∀ o, (applyRecord env c s).logsOf o =
        ownedLogIds (applyRecord env c s).logs o :=
      applyRecord_owner_index h
    simpa [execAllRecords] using ih (applyRecord env c s) hstep o

end ColdChainTracker

/-! ## Claim theorems -/

/-- C1: every successful append (`storeKey` / `recordTemperature`)
increments `totalCount` by one and assigns the new record the id equal
to the record-array length before the push (that id is what is appended
to the caller's owner index); consequently, after any sequence of `N`
successful appends from the empty ledger, `getTotalKeyCount` /
`getTotalLogCount` is `N` and `getAllLogIds` is exactly
`[0, 1, ..., N-1]`. -/
theorem C1_append_assigns_dense_ids :
    (∀ env sender ts keyName ev p sig (s s' : FrostKeyChain.State),
      FrostKeyChain.storeKey env sender ts keyName ev p sig s = Except.ok s' →
        FrostKeyChain.getTotalKeyCount s' = FrostKeyChain.getTotalKeyCount s + 1 ∧
        FrostKeyChain.getKeyIdsByOwner s' sender =
          FrostKeyChain.getKeyIdsByOwner s sender ++ [FrostKeyChain.getTotalKeyCount s]) ∧
    (∀ env sender ts location cargo et p w sig (s s' : ColdChainTracker.State),
      ColdChainTracker.recordTemperature env sender ts location cargo et p w sig s =
          Except.ok s' →
        ColdChainTracker.getTotalLogCount s' = ColdChainTracker.getTotalLogCount s + 1 ∧
        ColdChainTracker.getLogIdsByRecorder s' sender =
          ColdChainTracker.getLogIdsByRecorder s sender ++
            [ColdChainTracker.getTotalLogCount s]) ∧
    (∀ env cs (s' : ColdChainTracker.State),
      ColdChainTracker.execRecords env cs ColdChainTracker.emptyState = some s' →
        ColdChainTracker.getTotalLogCount s' = cs.length ∧
        ColdChainTracker.getAllLogIds s' = List.range cs.length) ∧
    (∀ env cs (s' : FrostKeyChain.State),
      FrostKeyChain.execStores env cs FrostKeyChain.emptyState = some s' →
        FrostKeyChain.getTotalKeyCount s' = cs.length) := by
  refine ⟨?_, ?_, ?_, ?_⟩
  · intro env sender ts keyName ev p sig s s' h
    obtain ⟨_, _, _, ev', _, hkeys, hkof⟩ := FrostKeyChain.storeKey_ok h
    constructor
    · unfold FrostKeyChain.getTotalKeyCount
      simp [hkeys]
    · unfold FrostKeyChain.getKeyIdsByOwner FrostKeyChain.getTotalKeyCount
      rw [hkof]
      simp
  · intro env sender ts location cargo et p w sig s s' h
    obtain ⟨_, _, _, ev', _, hlogs, hlof⟩ := ColdChainTracker.recordTemperature_ok h
    constructor
    · unfold ColdChainTracker.getTotalLogCount
      simp [hlogs]
    · unfold ColdChainTracker.getLogIdsByRecorder ColdChainTracker.getTotalLogCount
      rw [hlof]
      simp
  · intro env cs s' h
    have hlen := ColdChainTracker.execRecords_length h
    have hempty : ColdChainTracker.emptyState.logs.length = 0 := rfl
    constructor
    · unfold ColdChainTracker.getTotalLogCount
      omega
    · unfold ColdChainTracker.getAllLogIds
      have : s'.logs.length = cs.length := by omega
      rw [this]
  · intro env cs s' h
    have hlen := FrostKeyChain.execStores_length h
    have hempty : FrostKeyChain.emptyState.keys.length = 0 := rfl
    unfold FrostKeyChain.getTotalKeyCount
    omega

/-- Witness for C1 at a concrete input: one successful
`recordTemperature` call from the empty tracker yields one log with id
list `[0]`. -/
theorem C1_append_assigns_dense_ids_witness :
    ColdChainTracker.getTotalLogCount coldW = 1 ∧
    ColdChainTracker.getAllLogIds coldW = [0] := by
  have h := C1_append_assigns_dense_ids.2.2.1 envW [callW] coldW rfl
  exact ⟨h.1, h.2.trans (by decide)⟩

/-- C2: an append call whose metadata passes validation but whose
signature recovers to an identity different from the caller reverts
with `AuthorizationError`, and the rejection is atomic: the transaction
leaves the state exactly as it was, so `totalCount` is not increased and
no id is added to any owner's index. -/
theorem C2_auth_mismatch_atomic_reject :
    (∀ env sender ts keyName ev p sig (s : FrostKeyChain.State) signer,
      keyName.length ≠ 0 → keyName.length ≤ 100 →
      env.recover (Digest.storeTag sender keyName) sig = some signer →
      signer ≠ sender →
        FrostKeyChain.storeKey env sender ts keyName ev p sig s =
          Except.error LedgerError.authorizationError ∧
        FrostKeyChain.applyOp env (FrostKeyChain.Op.store sender ts keyName ev p sig) s = s) ∧
    (∀ env sender ts location cargo et p w sig (s : ColdChainTracker.State) signer,
      location.length ≠ 0 → cargo.length ≠ 0 →
      env.recover (Digest.recordTag sender location cargo) sig = some signer →
      signer ≠ sender →
        ColdChainTracker.recordTemperature env sender ts location cargo et p w sig s =
          Except.error LedgerError.authorizationError ∧
        ColdChainTracker.applyRecord env
          { sender := sender, ts := ts, location := location, cargo := cargo
            encTemp := et, inputProof := p, isWarning := w, signature := sig } s = s) := by
  constructor
  · intro env sender ts keyName ev p sig s signer hlen0 hlen hrec hne
    have herr := FrostKeyChain.storeKey_auth_err ts ev p s hlen0 hlen hrec hne
    refine ⟨herr, ?_⟩
    simp only [FrostKeyChain.applyOp]
    rw [herr]
  · intro env sender ts location cargo et p w sig s signer hloc hcar hrec hne
    have herr := ColdChainTracker.record_auth_err ts et p w s hloc hcar hrec hne
    refine ⟨herr, ?_⟩
    simp only [ColdChainTracker.applyRecord]
    rw [herr]

/-- Witness for C2 at a concrete input: under `envW`, signature 7
recovers to 7 while the caller is 5, so the call reverts with
`AuthorizationError` and the empty state is unchanged. -/
theorem C2_auth_mismatch_atomic_reject_witness :
    FrostKeyChain.storeKey envW 5 10 [65] 3 4 7 FrostKeyChain.emptyState =
      Except.error LedgerError.authorizationError ∧
    FrostKeyChain.applyOp envW (FrostKeyChain.Op.store 5 10 [65] 3 4 7)
      FrostKeyChain.emptyState = FrostKeyChain.emptyState :=
  C2_auth_mismatch_atomic_reject.1 envW 5 10 [65] 3 4 7 FrostKeyChain.emptyState 7
    (by decide) (by decide) rfl (by decide)

/-- C3: after any sequence of calls from the empty ledger, in both
variants, `idsByOwner O` (`getKeyIdsByOwner` / `getLogIdsByRecorder`) is
exactly the list of record ids whose record's owner (`owner` /
`recorder`) field is `O`, in append order (`ownedIds` /
`ownedLogIds`), `countByOwner O` (`getKeyCountByOwner` /
`getLogCountByRecorder`) is its length (0 for unknown owners, without
error), and every id in the returned list refers to a record owned by
`O`. -/
theorem C3_owner_index_exact :
    (∀ env (ops : List FrostKeyChain.Op) (o : Nat),
      FrostKeyChain.getKeyIdsByOwner
          (FrostKeyChain.execOps env ops FrostKeyChain.emptyState) o =
        FrostKeyChain.ownedIds
          (FrostKeyChain.execOps env ops FrostKeyChain.emptyState).keys o ∧
      FrostKeyChain.getKeyCountByOwner
          (FrostKeyChain.execOps env ops FrostKeyChain.emptyState) o =
        (FrostKeyChain.ownedIds
          (FrostKeyChain.execOps env ops FrostKeyChain.emptyState).keys o).length ∧
      ∀ i ∈ FrostKeyChain.getKeyIdsByOwner
          (FrostKeyChain.execOps env ops FrostKeyChain.emptyState) o,
        ((FrostKeyChain.execOps env ops FrostKeyChain.emptyState).keys.getD i
          FrostKeyChain.dfltEntry).owner = o) ∧
    (∀ env (cs : List ColdChainTracker.RecordCall) (o : Nat),
      ColdChainTracker.getLogIdsByRecorder
          (ColdChainTracker.execAllRecords env cs ColdChainTracker.emptyState) o =
        ColdChainTracker.ownedLogIds
          (ColdChainTracker.execAllRecords env cs ColdChainTracker.emptyState).logs o ∧
      ColdChainTracker.getLogCountByRecorder
          (ColdChainTracker.execAllRecords env cs ColdChainTracker.emptyState) o =
        (ColdChainTracker.ownedLogIds
          (ColdChainTracker.execAllRecords env cs ColdChainTracker.emptyState).logs
            o).length ∧
      ∀ i ∈ ColdChainTracker.getLogIdsByRecorder
          (ColdChainTracker.execAllRecords env cs ColdChainTracker.emptyState) o,
        ((ColdChainTracker.execAllRecords env cs ColdChainTracker.emptyState).logs.getD i
          ColdChainTracker.dfltLog).recorder = o) := by
  constructor
  · intro env ops o
    have hbase : ∀ o, FrostKeyChain.emptyState.keysOf o =
        FrostKeyChain.ownedIds FrostKeyChain.emptyState.keys o := by
      intro o
      simp [FrostKeyChain.emptyState, FrostKeyChain.ownedIds]
    have h := FrostKeyChain.execOps_owner_index env ops FrostKeyChain.emptyState hbase
    refine ⟨h o, ?_, ?_⟩
    · unfold FrostKeyChain.getKeyCountByOwner
      rw [h o]
    · intro i hi
      unfold FrostKeyChain.getKeyIdsByOwner at hi
      rw [h o] at hi
      unfold FrostKeyChain.ownedIds at hi
      rw [List.mem_filter] at hi
      exact Nat.eq_of_beq_eq_true (by simpa using hi.2)
  · intro env cs o
    have hbase : ∀ o, ColdChainTracker.emptyState.logsOf o =
        ColdChainTracker.ownedLogIds ColdChainTracker.emptyState.logs o := by
      intro o
      simp [ColdChainTracker.emptyState, ColdChainTracker.ownedLogIds]
    have h := ColdChainTracker.execAllRecords_owner_index env cs
      ColdChainTracker.emptyState hbase
    refine ⟨h o, ?_, ?_⟩
    · unfold ColdChainTracker.getLogCountByRecorder
      rw [h o]
    · intro i hi
      unfold ColdChainTracker.getLogIdsByRecorder at hi
      rw [h o] at hi
      unfold ColdChainTracker.ownedLogIds at hi
      rw [List.mem_filter] at hi
      exact Nat.eq_of_beq_eq_true (by simpa using hi.2)

/-- Witness for C3 at concrete inputs: after one `storeKey` by owner 5
the key index of owner 5 is `[0]` (whose record is owned by 5) and an
unknown owner 9 has count 0; after one `recordTemperature` by recorder 5
the log index of recorder 5 is `[0]` (whose log was recorded by 5) and
an unknown recorder 9 has count 0. -/
theorem C3_owner_index_exact_witness :
    (FrostKeyChain.getKeyIdsByOwner frostW 5 = [0] ∧
     FrostKeyChain.getKeyCountByOwner frostW 5 = 1 ∧
     FrostKeyChain.getKeyCountByOwner frostW 9 = 0 ∧
     (frostW.keys.getD 0 FrostKeyChain.dfltEntry).owner = 5) ∧
    (ColdChainTracker.getLogIdsByRecorder coldW 5 = [0] ∧
     ColdChainTracker.getLogCountByRecorder coldW 5 = 1 ∧
     ColdChainTracker.getLogCountByRecorder coldW 9 = 0 ∧
     (coldW.logs.getD 0 ColdChainTracker.dfltLog).recorder = 5) := by
  have h5 := C3_owner_index_exact.1 envW [storeOpW] 5
  have h9 := C3_owner_index_exact.1 envW [storeOpW] 9
  have hmem : (0 : Nat) ∈ FrostKeyChain.getKeyIdsByOwner frostW 5 := by decide
  have c5 := C3_owner_index_exact.2 envW [callW] 5
  have c9 := C3_owner_index_exact.2 envW [callW] 9
  have cmem : (0 : Nat) ∈ ColdChainTracker.getLogIdsByRecorder coldW 5 := by decide
  exact ⟨⟨h5.1.trans (by decide), h5.2.1.trans (by decide),
      h9.2.1.trans (by decide), h5.2.2 0 hmem⟩,
    ⟨c5.1.trans (by decide), c5.2.1.trans (by decide),
      c9.2.1.trans (by decide), c5.2.2 0 cmem⟩⟩

/-- C4: the read operations `getKeyMeta` / `getEncryptedValue`
(`getLogMeta` / `getEncryptedTemperature`) revert with `NotFound` for
every `id >= totalCount()` and succeed for every `id < totalCount()`.
(They are pure functions of the state and mutate nothing.) -/
theorem C4_reads_notFound_iff_out_of_range :
    (∀ (s : FrostKeyChain.State) id, FrostKeyChain.getTotalKeyCount s ≤ id →
      FrostKeyChain.getKeyMeta s id = Except.error LedgerError.notFound ∧
      FrostKeyChain.getEncryptedValue s id = Except.error LedgerError.notFound) ∧
    (∀ (s : FrostKeyChain.State) id, id < FrostKeyChain.getTotalKeyCount s →
      isOkE (FrostKeyChain.getKeyMeta s id) = true ∧
      isOkE (FrostKeyChain.getEncryptedValue s id) = true) ∧
    (∀ (s : ColdChainTracker.State) id, ColdChainTracker.getTotalLogCount s ≤ id →
      ColdChainTracker.getLogMeta s id = Except.error LedgerError.notFound ∧
      ColdChainTracker.getEncryptedTemperature s id = Except.error LedgerError.notFound) ∧
    (∀ (s : ColdChainTracker.State) id, id < ColdChainTracker.getTotalLogCount s →
      isOkE (ColdChainTracker.getLogMeta s id) = true ∧
      isOkE (ColdChainTracker.getEncryptedTemperature s id) = true) := by
  refine ⟨?_, ?_, ?_, ?_⟩
  · intro s id h
    unfold FrostKeyChain.getTotalKeyCount at h
    unfold FrostKeyChain.getKeyMeta FrostKeyChain.getEncryptedValue
    rw [if_neg (by omega), if_neg (by omega)]
    exact ⟨rfl, rfl⟩
  · intro s id h
    unfold FrostKeyChain.getTotalKeyCount at h
    unfold FrostKeyChain.getKeyMeta FrostKeyChain.getEncryptedValue
    rw [if_pos h, if_pos h]
    exact ⟨rfl, rfl⟩
  · intro s id h
    unfold ColdChainTracker.getTotalLogCount at h
    unfold ColdChainTracker.getLogMeta ColdChainTracker.getEncryptedTemperature
    rw [if_neg (by omega), if_neg (by omega)]
    exact ⟨rfl, rfl⟩
  · intro s id h
    unfold ColdChainTracker.getTotalLogCount at h
    unfold ColdChainTracker.getLogMeta ColdChainTracker.getEncryptedTemperature
    rw [if_pos h, if_pos h]
    exact ⟨rfl, rfl⟩

/-- Witness for C4 at a concrete input: the one-record state `frostW`
answers id 0 and reverts with `NotFound` on id 1. -/
theorem C4_reads_notFound_iff_out_of_range_witness :
    (FrostKeyChain.getKeyMeta frostW 1 = Except.error LedgerError.notFound ∧
     FrostKeyChain.getEncryptedValue frostW 1 = Except.error LedgerError.notFound) ∧
    (isOkE (FrostKeyChain.getKeyMeta frostW 0) = true ∧
     isOkE (FrostKeyChain.getEncryptedValue frostW 0) = true) ∧
    (ColdChainTracker.getLogMeta coldW 1 = Except.error LedgerError.notFound ∧
     ColdChainTracker.getEncryptedTemperature coldW 1 = Except.error LedgerError.notFound) ∧
    (isOkE (ColdChainTracker.getLogMeta coldW 0) = true ∧
     isOkE (ColdChainTracker.getEncryptedTemperature coldW 0) = true) :=
  ⟨C4_reads_notFound_iff_out_of_range.1 frostW 1 (by decide),
   C4_reads_notFound_iff_out_of_range.2.1 frostW 0 (by decide),
   C4_reads_notFound_iff_out_of_range.2.2.1 coldW 1 (by decide),
   C4_reads_notFound_iff_out_of_range.2.2.2 coldW 0 (by decide)⟩

/-- C5: a successful `updateKey` at host timestamp `ts` requires and
establishes strict timestamp growth: the stored `updatedAt` was strictly
below `ts` and becomes exactly `ts`; a second `updateKey` on the same
record by its owner at the same timestamp reverts with `StaleTimestamp`
and leaves the record exactly as the first update left it. -/
theorem C5_same_timestamp_second_update_stale :
    ∀ env env2 sender ts id ev p sig ev2 p2 sig2 (s s' : FrostKeyChain.State),
      FrostKeyChain.updateKey env sender ts id ev p sig s = Except.ok s' →
        (s'.keys.getD id FrostKeyChain.dfltEntry).updatedAt = ts ∧
        (s.keys.getD id FrostKeyChain.dfltEntry).updatedAt < ts ∧
        FrostKeyChain.updateKey env2 sender ts id ev2 p2 sig2 s' =
          Except.error LedgerError.staleTimestamp ∧
        FrostKeyChain.applyOp env2 (FrostKeyChain.Op.update sender ts id ev2 p2 sig2) s' =
          s' := by
  intro env env2 sender ts id ev p sig ev2 p2 sig2 s s' h
  obtain ⟨hid, howner, hts, _, ev', hev, hkeys, _⟩ := FrostKeyChain.updateKey_ok h
  have hgd : s'.keys.getD id FrostKeyChain.dfltEntry =
      { s.keys.getD id FrostKeyChain.dfltEntry with encryptedValue := ev', updatedAt := ts } := by
    rw [hkeys]
    exact getD_set_self_of_lt _ _ _ _ hid
  have hupd : (s'.keys.getD id FrostKeyChain.dfltEntry).updatedAt = ts := by rw [hgd]
  have hown' : (s'.keys.getD id FrostKeyChain.dfltEntry).owner = sender := by rw [hgd]; exact howner
  have hid' : id < s'.keys.length := by rw [hkeys, List.length_set]; exact hid
  have herr : FrostKeyChain.updateKey env2 sender ts id ev2 p2 sig2 s' =
      Except.error LedgerError.staleTimestamp := by
    unfold FrostKeyChain.updateKey
    rw [if_pos hid', if_neg (by rw [hown']; simp), if_pos (by rw [hupd]; omega)]
  refine ⟨hupd, hts, herr, ?_⟩
  simp only [FrostKeyChain.applyOp]
  rw [herr]

/-- Witness for C5 at a concrete input: updating key 0 of `frostW` at
time 11 succeeds (its `updatedAt` was 10) and a second same-timestamp
update by the owner reverts with `StaleTimestamp`. -/
theorem C5_same_timestamp_second_update_stale_witness :
    (frostW2.keys.getD 0 FrostKeyChain.dfltEntry).updatedAt = 11 ∧
    (frostW.keys.getD 0 FrostKeyChain.dfltEntry).updatedAt < 11 ∧
    FrostKeyChain.updateKey envW 5 11 0 9 9 5 frostW2 =
      Except.error LedgerError.staleTimestamp ∧
    FrostKeyChain.applyOp envW (FrostKeyChain.Op.update 5 11 0 9 9 5) frostW2 = frostW2 :=
  C5_same_timestamp_second_update_stale envW envW 5 11 0 7 8 5 9 9 5 frostW frostW2 rfl

/-- C6: an `updateKey` call on an existing record by a caller that is
not the record's stored owner reverts with `NotOwner`, and the
transaction leaves the state (hence the target record's fields)
unchanged. -/
theorem C6_update_by_non_owner_rejected :
    ∀ env sender ts id ev p sig (s : FrostKeyChain.State),
      id < FrostKeyChain.getTotalKeyCount s →
      (s.keys.getD id FrostKeyChain.dfltEntry).owner ≠ sender →
        FrostKeyChain.updateKey env sender ts id ev p sig s =
          Except.error LedgerError.notOwner ∧
        FrostKeyChain.applyOp env (FrostKeyChain.Op.update sender ts id ev p sig) s = s := by
  intro env sender ts id ev p sig s hid hne
  unfold FrostKeyChain.getTotalKeyCount at hid
  have herr : FrostKeyChain.updateKey env sender ts id ev p sig s =
      Except.error LedgerError.notOwner := by
    unfold FrostKeyChain.updateKey
    rw [if_pos hid, if_pos hne]
  refine ⟨herr, ?_⟩
  simp only [FrostKeyChain.applyOp]
  rw [herr]

/-- Witness for C6 at a concrete input: caller 6 is not the owner (5) of
key 0 of `frostW`, so the update reverts with `NotOwner` and the state
is unchanged. -/
theorem C6_update_by_non_owner_rejected_witness :
    FrostKeyChain.updateKey envW 6 11 0 9 9 6 frostW =
      Except.error LedgerError.notOwner ∧
    FrostKeyChain.applyOp envW (FrostKeyChain.Op.update 6 11 0 9 9 6) frostW = frostW :=
  C6_update_by_non_owner_rejected envW 6 11 0 9 9 6 frostW (by decide) (by decide)

/-- C7 counterexample: the claim says location and cargo are validated
to be within length limits, with over-length metadata rejected as a
`ValidationError`.  The code enforces no length ceiling on `location`
or `cargo`: a `recordTemperature` call with a 101-byte location (over
the only observed ceiling, the 100-byte `keyName` limit) commits
successfully instead of reverting. -/
theorem C7_counterexample_no_location_limit :
    100 < loc101.length ∧
    isOkE (ColdChainTracker.recordTemperature envW 5 10 loc101 [67] 3 4 false 5
      ColdChainTracker.emptyState) = true := by
  constructor
  · decide
  · rfl

/-- C7 amended: `storeKey` validates `keyName` to be non-empty and at
most 100 bytes; `recordTemperature` validates `location` and `cargo`
only to be non-empty (no length ceiling).  These checks run before any
signature verification, proof ingestion, or state change — a violating
call reverts with `ValidationError` for every environment and signature,
and the transaction leaves the state unchanged. -/
theorem C7_validation_precedes_everything :
    (∀ env sender ts keyName ev p sig (s : FrostKeyChain.State),
      keyName.length = 0 ∨ 100 < keyName.length →
        FrostKeyChain.storeKey env sender ts keyName ev p sig s =
          Except.error LedgerError.validationError ∧
        FrostKeyChain.applyOp env (FrostKeyChain.Op.store sender ts keyName ev p sig) s = s) ∧
    (∀ env sender ts location cargo et p w sig (s : ColdChainTracker.State),
      location.length = 0 ∨ cargo.length = 0 →
        ColdChainTracker.recordTemperature env sender ts location cargo et p w sig s =
          Except.error LedgerError.validationError ∧
        ColdChainTracker.applyRecord env
          { sender := sender, ts := ts, location := location, cargo := cargo
            encTemp := et, inputProof := p, isWarning := w, signature := sig } s = s) := by
  constructor
  · intro env sender ts keyName ev p sig s hbad
    have herr : FrostKeyChain.storeKey env sender ts keyName ev p sig s =
        Except.error LedgerError.validationError := by
      unfold FrostKeyChain.storeKey
      rcases hbad with h0 | hlong
      · rw [if_pos h0]
      · rw [if_neg (by omega), if_pos hlong]
    refine ⟨herr, ?_⟩
    simp only [FrostKeyChain.applyOp]
    rw [herr]
  · intro env sender ts location cargo et p w sig s hbad
    have herr : ColdChainTracker.recordTemperature env sender ts location cargo et p w
        sig s = Except.error LedgerError.validationError := by
      unfold ColdChainTracker.recordTemperature
      rcases hbad with h0 | h0
      · rw [if_pos h0]
      · by_cases hloc : location.length = 0
        · rw [if_pos hloc]
        · rw [if_neg hloc, if_pos h0]
    refine ⟨herr, ?_⟩
    simp only [ColdChainTracker.applyRecord]
    rw [herr]

/-- Witness for the amended C7 at a concrete input: an empty key name
and an empty location are both rejected with `ValidationError`,
leaving the empty states unchanged. -/
theorem C7_validation_precedes_everything_witness :
    (FrostKeyChain.storeKey envW 5 10 [] 3 4 5 FrostKeyChain.emptyState =
      Except.error LedgerError.validationError ∧
     FrostKeyChain.applyOp envW (FrostKeyChain.Op.store 5 10 [] 3 4 5)
      FrostKeyChain.emptyState = FrostKeyChain.emptyState) ∧
    (ColdChainTracker.recordTemperature envW 5 10 [] [67] 3 4 false 5
      ColdChainTracker.emptyState = Except.error LedgerError.validationError ∧
     ColdChainTracker.applyRecord envW
      { sender := 5, ts := 10, location := [], cargo := [67]
        encTemp := 3, inputProof := 4, isWarning := false, signature := 5 }
      ColdChainTracker.emptyState = ColdChainTracker.emptyState) :=
  ⟨C7_validation_precedes_everything.1 envW 5 10 [] 3 4 5 FrostKeyChain.emptyState
    (Or.inl rfl),
   C7_validation_precedes_everything.2 envW 5 10 [] [67] 3 4 false 5
    ColdChainTracker.emptyState (Or.inl rfl)⟩

/-- C8: for every tracker state, `getStats` returns the pair
`(totalLogs, warningCount)` where `totalLogs` is the number of stored
records and `warningCount` is the number of records among them whose
`isWarning` flag is true (the linear scan equals the filter count); the
call reads the state and modifies nothing. -/
theorem C8_stats_counts_warnings (s : ColdChainTracker.State) :
    ColdChainTracker.getStats s =
      (ColdChainTracker.getTotalLogCount s,
       (s.logs.filter (fun l => l.isWarning)).length) := by
  unfold ColdChainTracker.getStats ColdChainTracker.getTotalLogCount
  rw [ColdChainTracker.foldl_warning_count]
  simp

/-- C9: no operation deletes a record; once appended, a record's
`owner`, `keyName`, and `createdAt` never change under any sequence of
transactions; at append time `updatedAt` starts equal to `createdAt`
(both the call's timestamp); and a successful `updateKey` changes only
the target record's `encryptedValue` and `updatedAt` (every other
record and the owner index are untouched). -/
theorem C9_record_fields_immutable :
    (∀ env ops (s : FrostKeyChain.State),
      s.keys.length ≤ (FrostKeyChain.execOps env ops s).keys.length) ∧
    (∀ env ops (s : FrostKeyChain.State) i, i < s.keys.length →
      ((FrostKeyChain.execOps env ops s).keys.getD i FrostKeyChain.dfltEntry).owner =
        (s.keys.getD i FrostKeyChain.dfltEntry).owner ∧
      ((FrostKeyChain.execOps env ops s).keys.getD i FrostKeyChain.dfltEntry).keyName =
        (s.keys.getD i FrostKeyChain.dfltEntry).keyName ∧
      ((FrostKeyChain.execOps env ops s).keys.getD i FrostKeyChain.dfltEntry).createdAt =
        (s.keys.getD i FrostKeyChain.dfltEntry).createdAt) ∧
    (∀ env sender ts keyName ev p sig (s s' : FrostKeyChain.State),
      FrostKeyChain.storeKey env sender ts keyName ev p sig s = Except.ok s' →
        (s'.keys.getD s.keys.length FrostKeyChain.dfltEntry).createdAt = ts ∧
        (s'.keys.getD s.keys.length FrostKeyChain.dfltEntry).updatedAt = ts) ∧
    (∀ env sender ts id ev p sig (s s' : FrostKeyChain.State),
      FrostKeyChain.updateKey env sender ts id ev p sig s = Except.ok s' →
        (∀ j, j ≠ id → s'.keys.getD j FrostKeyChain.dfltEntry =
          s.keys.getD j FrostKeyChain.dfltEntry) ∧
        (s'.keys.getD id FrostKeyChain.dfltEntry).owner =
          (s.keys.getD id FrostKeyChain.dfltEntry).owner ∧
        (s'.keys.getD id FrostKeyChain.dfltEntry).keyName =
          (s.keys.getD id FrostKeyChain.dfltEntry).keyName ∧
        (s'.keys.getD id FrostKeyChain.dfltEntry).createdAt =
          (s.keys.getD id FrostKeyChain.dfltEntry).createdAt ∧
        (s'.keys.getD id FrostKeyChain.dfltEntry).updatedAt = ts ∧
        s'.keysOf = s.keysOf) := by
  refine ⟨?_, ?_, ?_, ?_⟩
  · intro env ops s
    exact FrostKeyChain.execOps_length_mono env ops s
  · intro env ops s i hi
    exact FrostKeyChain.execOps_preserves_entry env ops s i hi
  · intro env sender ts keyName ev p sig s s' h
    obtain ⟨_, _, _, ev', _, hkeys, _⟩ := FrostKeyChain.storeKey_ok h
    have hgd : s'.keys.getD s.keys.length FrostKeyChain.dfltEntry =
        { owner := sender, keyName := keyName, encryptedValue := ev'
          createdAt := ts, updatedAt := ts } := by
      rw [hkeys]
      simp [List.getD_eq_getElem?_getD, List.getElem?_append_right (Nat.le_refl _)]
    rw [hgd]
    exact ⟨rfl, rfl⟩
  · intro env sender ts id ev p sig s s' h
    obtain ⟨hid, _, _, _, ev', _, hkeys, hkof⟩ := FrostKeyChain.updateKey_ok h
    have hgd : s'.keys.getD id FrostKeyChain.dfltEntry =
        { s.keys.getD id FrostKeyChain.dfltEntry with
            encryptedValue := ev', updatedAt := ts } := by
      rw [hkeys]
      exact getD_set_self_of_lt _ _ _ _ hid
    refine ⟨?_, ?_, ?_, ?_, ?_, hkof⟩
    · intro j hj
      rw [hkeys]
      exact getD_set_ne _ _ _ _ _ (fun hc => hj hc.symm)
    · rw [hgd]
    · rw [hgd]
    · rw [hgd]
    · rw [hgd]

/-- Witness for C9 at a concrete input: the stored key of `frostW` keeps
its owner, name and creation time across the update to `frostW2`; the
append set `createdAt = updatedAt = 10`; the update changed only the
encrypted value and `updatedAt`. -/
theorem C9_record_fields_immutable_witness :
    frostW.keys.length ≤ frostW2.keys.length ∧
    ((frostW2.keys.getD 0 FrostKeyChain.dfltEntry).owner =
      (frostW.keys.getD 0 FrostKeyChain.dfltEntry).owner ∧
     (frostW2.keys.getD 0 FrostKeyChain.dfltEntry).keyName =
      (frostW.keys.getD 0 FrostKeyChain.dfltEntry).keyName ∧
     (frostW2.keys.getD 0 FrostKeyChain.dfltEntry).createdAt =
      (frostW.keys.getD 0 FrostKeyChain.dfltEntry).createdAt) ∧
    ((frostW.keys.getD 0 FrostKeyChain.dfltEntry).createdAt = 10 ∧
     (frostW.keys.getD 0 FrostKeyChain.dfltEntry).updatedAt = 10) ∧
    (frostW2.keys.getD 0 FrostKeyChain.dfltEntry).updatedAt = 11 :=
  ⟨C9_record_fields_immutable.1 envW [FrostKeyChain.Op.update 5 11 0 7 8 5] frostW,
   C9_record_fields_immutable.2.1 envW [FrostKeyChain.Op.update 5 11 0 7 8 5] frostW 0
     (by decide),
   C9_record_fields_immutable.2.2.1 envW 5 10 [65] 3 4 5 FrostKeyChain.emptyState frostW rfl,
   (C9_record_fields_immutable.2.2.2 envW 5 11 0 7 8 5 frostW frostW2 rfl).2.2.2.2.1⟩

/-- C10: the store-authorization digest binds only the caller's address
and the key name, not the encrypted value handle or the input proof: a
`storeKey` call's signature-verification outcome (revert with
`AuthorizationError`, or with the recovery primitive's own failure) is
identical for any two choices of `(encValue, inputProof)`, so one
signature authorizes arbitrarily many stores of arbitrary payloads
under that name. -/
theorem C10_store_digest_ignores_payload :
    ∀ env sender ts keyName sig (s : FrostKeyChain.State) ev1 p1 ev2 p2,
      (FrostKeyChain.storeKey env sender ts keyName ev1 p1 sig s =
          Except.error LedgerError.authorizationError ↔
        FrostKeyChain.storeKey env sender ts keyName ev2 p2 sig s =
          Except.error LedgerError.authorizationError) ∧
      (FrostKeyChain.storeKey env sender ts keyName ev1 p1 sig s =
          Except.error LedgerError.ecdsaInvalid ↔
        FrostKeyChain.storeKey env sender ts keyName ev2 p2 sig s =
          Except.error LedgerError.ecdsaInvalid) := by
  intro env sender ts keyName sig s ev1 p1 ev2 p2
  unfold FrostKeyChain.storeKey
  split
  · exact ⟨Iff.rfl, Iff.rfl⟩
  · split
    · exact ⟨Iff.rfl, Iff.rfl⟩
    · cases hv : FrostKeyChain.verifyStoreSignature env sender keyName sig with
      | error e => simp
      | ok u =>
        cases u
        cases h1 : env.fromExternal ev1 p1 <;> cases h2 : env.fromExternal ev2 p2 <;> simp
